import Mathlib

/-!
Verification development for the dealbot deal orchestration and verification
pipeline: a shallow embedding of the preprocessing addon pipeline
(deal-addons.service.ts), the deal lifecycle orchestrator (deal.service.ts),
and the IPNI verification monitor (strategies/cdn.strategy.ts and the IPNI
strategy it contains), together with theorems settling the specification
claims.

External collaborators (storage backend, provider directory, HTTPS index
lookups, the database repository, wall-clock time) are modelled as explicit
environments supplying the outcome of each external call, so every embedded
function is pure and executable.
-/

namespace Dealbot

/-! ## Shared data model (database/types, common/types) -/

/-- A data payload: raw bytes, the recorded size, and a name
(DataFile in common/types.ts). Bytes are modelled as a list of naturals. -/
structure DataFile where
  data : List Nat
  size : Nat
  name : String
deriving Repr, DecidableEq

/-- Deal configuration flags plus the payload (deal-addons/types.ts). -/
structure DealConfiguration where
  enableCDN : Bool
  enableIpni : Bool
  dataFile : DataFile
deriving Repr, DecidableEq

/-- Primary deal lifecycle status (deals_status_enum in the initial migration:
pending, uploaded, piece_added, deal_created, failed). -/
inductive DealStatus where
  | pending
  | uploaded
  | piece_added
  | deal_created
  | failed
deriving Repr, DecidableEq

/-- IPNI verification sub-state of a deal (IpniStatus in database/types.ts,
constructors as used by the IPNI strategy and §3 of the spec). -/
inductive IpniStatus where
  | pending
  | sp_indexed
  | sp_advertised
  | sp_received_retrieve_request
  | verified
  | failed
deriving Repr, DecidableEq

/-- Metadata recorded by the CDN addon. -/
structure CdnMetadata where
  enabled : Bool
  provider : String
deriving Repr, DecidableEq

/-- Metadata recorded by the IPNI addon after CAR conversion. -/
structure IpniMetadata where
  enabled : Bool
  rootCID : String
  blockCIDs : List String
  blockCount : Nat
  carSize : Nat
  originalSize : Nat
deriving Repr, DecidableEq

/-- Per-addon metadata payload stored under the addon's name key. -/
inductive AddonMetadata where
  | cdn (m : CdnMetadata)
  | ipni (m : IpniMetadata)
  | direct
deriving Repr, DecidableEq

/-- Aggregated deal metadata: a JS object mapping addon name to that addon's
metadata, modelled as an insertion-ordered association list. -/
abbrev DealMetadata := List (String × AddonMetadata)

/-- First-match lookup in an association list (a JS object property read). -/
def alookup {α : Type} : List (String × α) → String → Option α
  | [], _ => none
  | (k, v) :: rest, key => if k = key then some v else alookup rest key

/-- JS object property assignment: update the key in place when present,
otherwise append it. -/
def recordSet {α : Type} : List (String × α) → String → α → List (String × α)
  | [], key, v => [(key, v)]
  | (k, w) :: rest, key, v =>
    if k = key then (k, v) :: rest else (k, w) :: recordSet rest key v

/-- Addon-level Synapse SDK configuration export: optional dataset-level and
piece-level key/value maps (deal-addons/types.ts). -/
structure SynapseConfig where
  dataSetMetadata : Option (List (String × String)) := none
  pieceMetadata : Option (List (String × String)) := none
deriving Repr, DecidableEq

/-- The merged Synapse configuration built by mergeSynapseConfigs: both
namespaces are always present (initialised to empty objects). -/
structure MergedSynapseConfig where
  dataSetMetadata : List (String × String)
  pieceMetadata : List (String × String)
deriving Repr, DecidableEq

/-- JS object spread merge of two string records, as in
a merged = spread of a then b: keys of a keep their positions (with the value
from b when b also has the key); keys only in b are appended in order. -/
def objMerge (a b : List (String × String)) : List (String × String) :=
  (a.map (fun kv => (kv.1, (alookup b kv.1).getD kv.2)))
    ++ b.filter (fun kv => (alookup a kv.1).isNone)

/-! ## Addons (deal-addons/) -/

/-- Execution context threaded through the preprocessing pipeline. -/
structure AddonExecutionContext where
  currentData : DataFile
  accumulatedMetadata : DealMetadata
  configuration : DealConfiguration

/-- Result of one addon's preprocessData (PreprocessingResult in types.ts;
the optional originalData field is dropped, no claim mentions it). -/
structure AddonPreprocessingResult where
  data : List Nat
  metadata : AddonMetadata
  size : Nat
deriving Repr, DecidableEq

/-- A registered addon strategy (IDealAddon): name, integer priority, the
mandatory applicability predicate and data transform, and the optional
validation and provider-configuration capabilities. A thrown JS error is an
Except.error carrying the message. -/
structure Addon where
  name : String
  priority : Int
  isApplicable : DealConfiguration → Bool
  preprocessData : AddonExecutionContext → Except String AddonPreprocessingResult
  validate : Option (AddonPreprocessingResult → Except String Bool) := none
  getSynapseConfig : Option (DealMetadata → SynapseConfig) := none

/-- External SDK constant METADATA_KEYS.WITH_CDN (exact string immaterial). -/
def WITH_CDN_KEY : String := "withCDN"

/-- External SDK constant METADATA_KEYS.WITH_IPFS_INDEXING. -/
def WITH_IPFS_INDEXING_KEY : String := "withIPFSIndexing"

/-- External SDK constant METADATA_KEYS.IPFS_ROOT_CID. -/
def IPFS_ROOT_CID_KEY : String := "ipfsRootCid"

/-- CdnAddonStrategy (cdn.strategy.ts): priority AddonPriority.MEDIUM = 5,
applicable when enableCDN, pass-through transform with CDN metadata.
In validate, the JS check on result.data is a Buffer truthiness test that a
Buffer object always passes, so only the size check can fail. -/
def cdnAddon : Addon where
  name := "cdn"
  priority := 5
  isApplicable := fun config => config.enableCDN
  preprocessData := fun ctx =>
    .ok { data := ctx.currentData.data,
          metadata := .cdn { enabled := true, provider := "fil-beam" },
          size := ctx.currentData.size }
  validate := some (fun result =>
    match result.metadata with
    | .cdn m =>
      if !m.enabled then .error "CDN validation failed: cdnEnabled flag not set"
      else if result.size = 0 then .error "CDN validation failed: data is empty"
      else .ok true
    | _ => .error "CDN validation failed: cdnEnabled flag not set")
  getSynapseConfig := some (fun _ =>
    { dataSetMetadata := some [(WITH_CDN_KEY, "")] })

/-- Content identifier. The sha2-256 digest and CID.create of the multiformats
library are external to the repository; the digest is modelled as an abstract
injective function of the block bytes. -/
structure Cid where
  bytes : List Nat
deriving Repr, DecidableEq

/-- CID.create(1, raw.code, sha256.digest(blockData)) for one block. -/
def cidOfBlock (blockData : List Nat) : Cid := ⟨blockData⟩

/-- cid.toString(): an injective rendering of the identifier; never the empty
string (mirroring real base32 CID strings). -/
def cidToString (c : Cid) : String := toString c.bytes

/-- Modelled from the spec: MAX_BLOCK_SIZE from common/constants.ts, which is
not among the provided files. Only its positivity matters to any claim (the
conversion function below is parametrised over it, and every theorem about it
holds for an arbitrary positive bound); a small concrete positive value
instantiates it in the IPNI addon. -/
def MAX_BLOCK_SIZE : Nat := 1024

/-- JS Buffer.slice(start, end) on the modelled byte list. -/
def jsSlice (l : List Nat) (s e : Nat) : List Nat := (l.drop s).take (e - s)

/-- CAR archive data for a root and blocks. The byte-level CAR encoding is out
of the spec's scope (§1 non-goals); it is modelled as a nonempty header naming
the root followed by each block's identifier and bytes. -/
def carEncode (root : Cid) (blocks : List (Cid × List Nat)) : List Nat :=
  (1 :: root.bytes) ++ (blocks.map (fun b => b.1.bytes ++ b.2)).flatten

/-- Result of convertToCar (CarDataFile in types.ts). -/
structure CarDataFile where
  carData : List Nat
  rootCID : Cid
  blockCIDs : List Cid
  blockCount : Nat
  totalBlockSize : Nat
  carSize : Nat
deriving Repr, DecidableEq

/-- IpniAddonStrategy.convertToCar: split the payload into
Math.ceil(size / maxBlockSize) blocks sliced from the data, then take the
first block as the root. With zero blocks the JS code reads .cid of
undefined and throws a TypeError, modelled as the corresponding error. -/
def convertToCar (maxBlockSize : Nat) (df : DataFile) : Except String CarDataFile :=
  let numBlocks := (df.size + maxBlockSize - 1) / maxBlockSize
  let blocks := (List.range numBlocks).map (fun i =>
    let blockData := jsSlice df.data (i * maxBlockSize) ((i + 1) * maxBlockSize)
    (cidOfBlock blockData, blockData))
  match blocks with
  | [] => .error "Cannot read properties of undefined (reading 'cid')"
  | b0 :: _ =>
    let rootCID := b0.1
    let carData := carEncode rootCID blocks
    .ok { carData := carData, rootCID := rootCID,
          blockCIDs := blocks.map Prod.fst,
          blockCount := blocks.length,
          totalBlockSize := (blocks.map (fun b => b.2.length)).sum,
          carSize := carData.length }

/-- IpniAddonStrategy.preprocessData: CAR conversion, wrapping any failure as
an IPNI preprocessing error. -/
def ipniPreprocessData (ctx : AddonExecutionContext) : Except String AddonPreprocessingResult :=
  match convertToCar MAX_BLOCK_SIZE ctx.currentData with
  | .error msg => .error ("IPNI preprocessing failed: " ++ msg)
  | .ok car =>
    .ok { data := car.carData,
          metadata := .ipni { enabled := true, rootCID := cidToString car.rootCID,
                              blockCIDs := car.blockCIDs.map cidToString,
                              blockCount := car.blockCount,
                              carSize := car.carSize,
                              originalSize := ctx.currentData.size },
          size := car.carSize }

/-- IpniAddonStrategy.validate. JS truthiness of metadata.rootCID is the
empty-string test; the block-CID list check is emptiness. -/
def ipniValidate (result : AddonPreprocessingResult) : Except String Bool :=
  match result.metadata with
  | .ipni m =>
    if !m.enabled then .error "IPNI validation failed: enabled flag not set"
    else if m.rootCID = "" then .error "IPNI validation failed: rootCID not generated"
    else if m.blockCIDs.isEmpty then .error "IPNI validation failed: no block CIDs generated"
    else if m.blockCount ≠ m.blockCIDs.length then .error "IPNI validation failed: block count mismatch"
    else if result.size = 0 then .error "IPNI validation failed: CAR data is empty"
    else .ok true
  | _ => .error "IPNI validation failed: enabled flag not set"

/-- IpniAddonStrategy.getSynapseConfig: export indexing configuration only when
the aggregated metadata holds this addon's entry with a truthy rootCID. -/
def ipniGetSynapseConfig (md : DealMetadata) : SynapseConfig :=
  match alookup md "ipfs_pin" with
  | some (.ipni m) =>
    if m.rootCID = "" then {}
    else { dataSetMetadata := some [(WITH_IPFS_INDEXING_KEY, "")],
           pieceMetadata := some [(IPFS_ROOT_CID_KEY, m.rootCID)] }
  | _ => {}

/-- IpniAddonStrategy (cdn.strategy.ts, second class in the file):
name ServiceType.IPFS_PIN, priority AddonPriority.HIGH = 1. -/
def ipniAddon : Addon where
  name := "ipfs_pin"
  priority := 1
  isApplicable := fun config => config.enableIpni
  preprocessData := ipniPreprocessData
  validate := some ipniValidate
  getSynapseConfig := some ipniGetSynapseConfig

/-- Modelled from the spec: the default pass-through Direct addon strategy
(strategies/direct.strategy.ts is not among the provided files). Per §4.1
step 2 and the §8 scenarios it is the fallback applied only when no addon is
applicable (so its own applicability predicate selects nothing), it passes the
payload through unchanged and exports no provider configuration; its name is
ServiceType.DIRECT_SP from the database enum and its priority AddonPriority.LOW. -/
def directAddon : Addon where
  name := "direct_sp"
  priority := 10
  isApplicable := fun _ => false
  preprocessData := fun ctx =>
    .ok { data := ctx.currentData.data, metadata := .direct, size := ctx.currentData.size }

/-! ## DealAddonsService -/

/-- The registry in registration order (registerAddons: direct, cdn, ipni);
Map iteration follows insertion order. -/
def registeredAddons : List Addon := [directAddon, cdnAddon, ipniAddon]

/-- DealAddonsService.getApplicableAddons: filter the registry by the
applicability predicate, in registration order. -/
def getApplicableAddons (config : DealConfiguration) : List Addon :=
  registeredAddons.filter (fun addon => addon.isApplicable config)

/-- The total preorder induced by the comparator a.priority - b.priority. -/
def addonLE (a b : Addon) : Prop := a.priority ≤ b.priority

instance : DecidableRel addonLE := fun a b => Int.decLe a.priority b.priority

instance : IsTotal Addon addonLE := ⟨fun a b => le_total a.priority b.priority⟩

instance : IsTrans Addon addonLE := ⟨fun _ _ _ h1 h2 => le_trans h1 h2⟩

/-- DealAddonsService.sortAddonsByPriority: a copy of the list sorted with the
comparator a.priority - b.priority. ECMAScript Array.prototype.sort is
required to be stable, and a stable sort by a total preorder has a unique
result, so it is embedded as a stable insertion sort on the priority order. -/
def sortAddonsByPriority (addons : List Addon) : List Addon :=
  addons.insertionSort addonLE

/-- Output of executePreprocessingPipeline. -/
structure PipelineOutput where
  finalData : List Nat
  finalSize : Nat
  aggregatedMetadata : DealMetadata
  appliedAddons : List String
deriving Repr, DecidableEq

/-- Run an addon's optional validation (a missing hook validates trivially;
a returned false is ignored by the caller, only a throw aborts). -/
def runValidate (addon : Addon) (result : AddonPreprocessingResult) : Except String Bool :=
  match addon.validate with
  | some v => v result
  | none => .ok true

/-- The sequential pipeline loop of executePreprocessingPipeline: each addon
transforms the current data, its metadata is stored under its name key, and
any failure aborts with an error naming the addon. -/
def executePipelineFrom : List Addon → AddonExecutionContext → List String → Except String PipelineOutput
  | [], ctx, applied =>
    .ok { finalData := ctx.currentData.data, finalSize := ctx.currentData.size,
          aggregatedMetadata := ctx.accumulatedMetadata, appliedAddons := applied }
  | addon :: rest, ctx, applied =>
    match addon.preprocessData ctx with
    | .error msg => .error ("Add-on " ++ addon.name ++ " preprocessing failed: " ++ msg)
    | .ok result =>
      match runValidate addon result with
      | .error msg => .error ("Add-on " ++ addon.name ++ " preprocessing failed: " ++ msg)
      | .ok _ =>
        executePipelineFrom rest
          { ctx with
            currentData := { ctx.currentData with data := result.data, size := result.size },
            accumulatedMetadata := recordSet ctx.accumulatedMetadata addon.name result.metadata }
          (applied ++ [addon.name])

/-- DealAddonsService.executePreprocessingPipeline. -/
def executePreprocessingPipeline (addons : List Addon) (config : DealConfiguration) : Except String PipelineOutput :=
  executePipelineFrom addons
    { currentData := config.dataFile, accumulatedMetadata := [], configuration := config } []

/-- One step of mergeSynapseConfigs: spread-merge an addon's export (an addon
without the capability, i.e. a missing method, contributes nothing). -/
def mergeSynapseConfigStep (md : DealMetadata) (merged : MergedSynapseConfig) (addon : Addon) : MergedSynapseConfig :=
  match addon.getSynapseConfig with
  | none => merged
  | some get =>
    let config := get md
    let merged :=
      match config.dataSetMetadata with
      | some m => { merged with dataSetMetadata := objMerge merged.dataSetMetadata m }
      | none => merged
    match config.pieceMetadata with
    | some m => { merged with pieceMetadata := objMerge merged.pieceMetadata m }
    | none => merged

/-- DealAddonsService.mergeSynapseConfigs over the addons in execution order. -/
def mergeSynapseConfigs (addons : List Addon) (md : DealMetadata) : MergedSynapseConfig :=
  addons.foldl (mergeSynapseConfigStep md) { dataSetMetadata := [], pieceMetadata := [] }

/-- Complete preprocessing result (DealPreprocessingResult in types.ts). -/
structure DealPreprocessingResult where
  processedData : DataFile
  metadata : DealMetadata
  synapseConfig : MergedSynapseConfig
  appliedAddons : List String
deriving Repr, DecidableEq

/-- DealAddonsService.preprocessDeal: select applicable addons, fall back to
the direct addon when none apply, sort by priority, run the pipeline and merge
the Synapse configurations. -/
def preprocessDeal (config : DealConfiguration) : Except String DealPreprocessingResult :=
  let applicableAddons := getApplicableAddons config
  let applicableAddons := if applicableAddons.isEmpty then [directAddon] else applicableAddons
  let sortedAddons := sortAddonsByPriority applicableAddons
  match executePreprocessingPipeline sortedAddons config with
  | .error msg => .error ("Deal preprocessing failed: " ++ msg)
  | .ok p =>
    .ok { processedData := { data := p.finalData, size := p.finalSize, name := config.dataFile.name },
          metadata := p.aggregatedMetadata,
          synapseConfig := mergeSynapseConfigs sortedAddons p.aggregatedMetadata,
          appliedAddons := p.appliedAddons }

/-! ## Deal entity and DealService (deal.service.ts) -/

/-- The persisted Deal record (database/entities/deal.entity.ts), with the
fields the orchestrator and the verification monitor touch. Timestamps are
epoch milliseconds; latency metrics are signed (JS subtraction). The loaded
storageProvider relation is modelled by its presence. -/
structure Deal where
  fileName : String
  fileSize : Nat
  spAddress : String
  walletAddress : String
  status : DealStatus
  metadata : DealMetadata
  serviceTypes : List String
  errorMessage : Option String := none
  pieceCid : Option String := none
  dataSetId : Option Nat := none
  pieceSize : Option Nat := none
  pieceId : Option Nat := none
  transactionHash : Option String := none
  uploadStartTime : Option Nat := none
  uploadEndTime : Option Nat := none
  pieceAddedTime : Option Nat := none
  dealConfirmedTime : Option Nat := none
  ingestLatencyMs : Option Int := none
  chainLatencyMs : Option Int := none
  dealLatencyMs : Option Int := none
  ingestThroughputBps : Option Nat := none
  hasStorageProvider : Bool := false
  ipniStatus : Option IpniStatus := none
  ipniIndexedAt : Option Nat := none
  ipniAdvertisedAt : Option Nat := none
  ipniRetrievedAt : Option Nat := none
  ipniVerifiedAt : Option Nat := none
  ipniTimeToIndexMs : Option Int := none
  ipniTimeToAdvertiseMs : Option Int := none
  ipniTimeToRetrieveMs : Option Int := none
  ipniTimeToVerifyMs : Option Int := none
  ipniVerifiedCidsCount : Option Nat := none
  ipniUnverifiedCidsCount : Option Nat := none
deriving Repr, DecidableEq

instance {ε α : Type} [DecidableEq ε] [DecidableEq α] : DecidableEq (Except ε α) := fun x y =>
  match x, y with
  | .error a, .error b =>
    if h : a = b then .isTrue (congrArg Except.error h)
    else .isFalse (fun hh => h (Except.error.inj hh))
  | .ok a, .ok b =>
    if h : a = b then .isTrue (congrArg Except.ok h)
    else .isFalse (fun hh => h (Except.ok.inj hh))
  | .error _, .ok _ => .isFalse (fun hh => Except.noConfusion hh)
  | .ok _, .error _ => .isFalse (fun hh => Except.noConfusion hh)

/-- UploadResult from the storage SDK. -/
structure UploadResult where
  pieceCid : String
  size : Nat
  pieceId : Nat
deriving Repr, DecidableEq

/-- Behaviour of storage.upload for one run. Per the backend contract (§6)
the two callbacks fire at most once each, in the order upload-complete then
piece-added, before upload() resolves; a rejection may happen after any prefix
of the callbacks has fired. -/
inductive UploadOutcome where
  | ok (result : UploadResult) (pieceCid : String) (txHash : String)
  | failBeforeCallbacks (msg : String)
  | failAfterUploadComplete (pieceCid : String) (msg : String)
  | failAfterPieceAdded (pieceCid : String) (txHash : String) (msg : String)
deriving Repr, DecidableEq

/-- Environment of one createDeal run: outcomes of the external calls and the
wall-clock values observed at the successive new Date() call sites. -/
structure CreateDealEnv where
  providerFound : Bool
  createStorage : Except String Nat
  upload : UploadOutcome
  saveFails : Bool
  t0 : Nat
  t1 : Nat
  t2 : Nat
  t3 : Nat
deriving Repr, DecidableEq

/-- Which call site attempted a repository save. -/
inductive SaveOrigin where
  | addonHook
  | cleanup
deriving Repr, DecidableEq

/-- Math.round(p / q) for naturals with q > 0 (round half up); q = 0 is JS
Infinity, out of model (no claim depends on the throughput value). -/
def jsRoundDiv (p q : Nat) : Nat := (2 * p + q) / (2 * q)

/-- DealService.handleUploadComplete, deal-mutation part: record the piece
identifier, upload end time, ingest latency and throughput, and move to
UPLOADED. The addon hooks it triggers are applied by the caller model. -/
def dsHandleUploadComplete (deal : Deal) (pieceCid : String) (t1 : Nat) : Deal :=
  let start := deal.uploadStartTime.getD 0
  { deal with
    pieceCid := some pieceCid,
    uploadEndTime := some t1,
    ingestLatencyMs := some ((t1 : Int) - (start : Int)),
    ingestThroughputBps :=
      if t1 - start = 0 then none else some (jsRoundDiv (deal.fileSize * 1000) (t1 - start)),
    status := .uploaded }

/-- DealService.handleRootAdded: record piece-added time, chain latency and
the transaction reference, and move to PIECE_ADDED. -/
def dsHandleRootAdded (deal : Deal) (txHash : String) (t2 : Nat) : Deal :=
  { deal with
    pieceAddedTime := some t2,
    chainLatencyMs := some ((t2 : Int) - (deal.uploadEndTime.getD 0 : Int)),
    status := .piece_added,
    transactionHash := some txHash }

/-- DealService.updateDealWithUploadResult: apply the final upload result and
move to DEAL_CREATED with the deal-confirmed time and deal latency. -/
def updateDealWithUploadResult (deal : Deal) (uploadResult : UploadResult) (t3 : Nat) : Deal :=
  { deal with
    pieceCid := some uploadResult.pieceCid,
    pieceSize := some uploadResult.size,
    pieceId := some uploadResult.pieceId,
    status := .deal_created,
    dealConfirmedTime := some t3,
    dealLatencyMs := some ((t3 : Int) - (deal.uploadStartTime.getD 0 : Int)) }

/-- IpniAddonStrategy.onUploadComplete, deal-mutation part: without a storage
provider it returns early; otherwise it sets the IPNI status to pending and
attempts a save. The monitoring it then starts is detached (not awaited) and
modelled separately. -/
def ipniOnUploadComplete (deal : Deal) : Deal × List (SaveOrigin × Deal) :=
  if !deal.hasStorageProvider then (deal, [])
  else
    let deal := { deal with ipniStatus := some IpniStatus.pending }
    (deal, [(SaveOrigin.addonHook, deal)])

/-- DealAddonsService.handleUploadComplete: run the onUploadComplete hook of
every applied addon that has one (of the registered addons only the IPNI
addon does); a hook failure is caught and never propagates. -/
def addonsHandleUploadComplete (deal : Deal) (appliedAddons : List String) : Deal × List (SaveOrigin × Deal) :=
  if appliedAddons.contains "ipfs_pin" then ipniOnUploadComplete deal else (deal, [])

/-- Full observable outcome of one createDeal run: the value returned or the
error re-raised, the deal record as last mutated, every repository save
attempt in order (tagged by call site), and the successive values assigned to
the primary status field. -/
structure CreateDealOutcome where
  result : Except String Deal
  finalDeal : Deal
  saves : List (SaveOrigin × Deal)
  statusTrace : List DealStatus
deriving Repr, DecidableEq

/-- The PENDING record built by dealRepository.create at the top of
createDeal. -/
def mkPendingDeal (input : DealPreprocessingResult) (providerAddress walletAddress : String) : Deal :=
  { fileName := input.processedData.name,
    fileSize := input.processedData.size,
    spAddress := providerAddress,
    status := .pending,
    walletAddress := walletAddress,
    metadata := input.metadata,
    serviceTypes := input.appliedAddons }

/-- DealService.createDeal: construct a PENDING record, attach the provider
relation, create the storage context, upload with the two callbacks, apply the
upload result, and on any error mark the deal FAILED with the thrown message
and re-raise; the finally block always attempts exactly one save through
saveDeal, which swallows a save failure (so saveFails influences nothing).
postProcessDeal failures are caught inside DealAddonsService and none of the
registered addons has a postProcess hook. -/
def createDeal (env : CreateDealEnv) (providerAddress walletAddress : String)
    (input : DealPreprocessingResult) : CreateDealOutcome :=
  let deal0 := mkPendingDeal input providerAddress walletAddress
  let deal0 := { deal0 with hasStorageProvider := env.providerFound }
  match env.createStorage with
  | .error msg =>
    let deal1 := { deal0 with status := .failed, errorMessage := some msg }
    { result := .error msg, finalDeal := deal1,
      saves := [(SaveOrigin.cleanup, deal1)],
      statusTrace := [.pending, .failed] }
  | .ok dataSetId =>
    let deal1 := { deal0 with dataSetId := some dataSetId, uploadStartTime := some env.t0 }
    match env.upload with
    | .failBeforeCallbacks msg =>
      let deal2 := { deal1 with status := .failed, errorMessage := some msg }
      { result := .error msg, finalDeal := deal2,
        saves := [(SaveOrigin.cleanup, deal2)],
        statusTrace := [.pending, .failed] }
    | .failAfterUploadComplete pieceCid msg =>
      let deal2 := dsHandleUploadComplete deal1 pieceCid env.t1
      let hook := addonsHandleUploadComplete deal2 input.appliedAddons
      let deal3 := { hook.1 with status := .failed, errorMessage := some msg }
      { result := .error msg, finalDeal := deal3,
        saves := hook.2 ++ [(SaveOrigin.cleanup, deal3)],
        statusTrace := [.pending, .uploaded, .failed] }
    | .failAfterPieceAdded pieceCid txHash msg =>
      let deal2 := dsHandleUploadComplete deal1 pieceCid env.t1
      let hook := addonsHandleUploadComplete deal2 input.appliedAddons
      let deal3 := dsHandleRootAdded hook.1 txHash env.t2
      let deal4 := { deal3 with status := .failed, errorMessage := some msg }
      { result := .error msg, finalDeal := deal4,
        saves := hook.2 ++ [(SaveOrigin.cleanup, deal4)],
        statusTrace := [.pending, .uploaded, .piece_added, .failed] }
    | .ok uploadResult pieceCid txHash =>
      let deal2 := dsHandleUploadComplete deal1 pieceCid env.t1
      let hook := addonsHandleUploadComplete deal2 input.appliedAddons
      let deal3 := dsHandleRootAdded hook.1 txHash env.t2
      let deal4 := updateDealWithUploadResult deal3 uploadResult env.t3
      { result := .ok deal4, finalDeal := deal4,
        saves := hook.2 ++ [(SaveOrigin.cleanup, deal4)],
        statusTrace := [.pending, .uploaded, .piece_added, .deal_created] }

/-! ## Batch fan-out (processProvidersInParallel, createDealsForAllProviders) -/

/-- One entry of the results array built by processProvidersInParallel. -/
structure BatchRecord where
  success : Bool
  deal : Option Deal
  error : Option String
  provider : String
deriving Repr, DecidableEq

/-- One group: map createDeal over the batch and convert each settled outcome
(Promise.allSettled) into a record, in batch order. -/
def processBatch (createDealFn : String → Except String Deal) (batch : List String) : List BatchRecord :=
  batch.map (fun provider =>
    match createDealFn provider with
    | .ok deal => { success := true, deal := some deal, error := none, provider := provider }
    | .error msg => { success := false, deal := none, error := some msg, provider := provider })

/-- The group slicing providers.slice(i, i + maxConcurrency) for
i = 0, maxConcurrency, 2·maxConcurrency, …; a zero group size would never
advance in JS and is out of model. -/
def chunkProviders (providers : List String) (maxConcurrency : Nat) : List (List String) :=
  if h : providers.isEmpty || maxConcurrency == 0 then []
  else
    providers.take maxConcurrency :: chunkProviders (providers.drop maxConcurrency) maxConcurrency
termination_by providers.length
decreasing_by
  simp only [Bool.or_eq_true, List.isEmpty_iff, beq_iff_eq, not_or] at h
  have h1 : 0 < providers.length := List.length_pos.mpr h.1
  have h2 : 0 < maxConcurrency := Nat.pos_of_ne_zero h.2
  simp only [List.length_drop]
  omega

/-- DealService.processProvidersInParallel: groups are processed sequentially,
each group's settled outcomes are appended in order. -/
def processProvidersInParallel (createDealFn : String → Except String Deal)
    (providers : List String) (maxConcurrency : Nat) : List BatchRecord :=
  ((chunkProviders providers maxConcurrency).map (processBatch createDealFn)).flatten

/-- DealService.createDealsForAllProviders, after data fetch and
preprocessing: fan out with the default group size 10 and keep exactly the
Deals of the fulfilled outcomes. -/
def createDealsForAllProviders (createDealFn : String → Except String Deal)
    (providers : List String) : List Deal :=
  (processProvidersInParallel createDealFn providers 10).filterMap
    (fun r => if r.success then r.deal else none)

/-! ## IPNI verification monitor (IpniAddonStrategy, cdn.strategy.ts) -/

/-- Timing constants of the IPNI strategy. -/
def POLLING_INTERVAL_MS : Nat := 2500

/-- Phase 1 status-polling timeout: 10 minutes. -/
def POLLING_TIMEOUT_MS : Nat := 600000

/-- Phase 3 overall verification timeout: 60 minutes. -/
def IPNI_LOOKUP_TIMEOUT_MS : Nat := 3600000

/-- Phase 2 settle delay after a retrieve request: 30 seconds. -/
def IPNI_VERIFICATION_DELAY_MS : Nat := 30000

/-- Interval between root-identifier verification retries: 10 seconds. -/
def IPNI_VERIFICATION_RETRY_INTERVAL_MS : Nat := 10000

/-- Externally observable events of the verification run: one IPNI lookup of a
content identifier (with whether it verified) or one deliberate wait. -/
inductive VEvent where
  | lookup (cid : String) (ok : Bool)
  | sleep (ms : Nat)
deriving Repr, DecidableEq

/-- State threaded through the monitor: the wall clock (Date.now(), epoch ms),
the count of IPNI lookup calls so far, the count of provider status polls so
far, and the event log. -/
structure VState where
  now : Nat
  calls : Nat
  polls : Nat
  log : List VEvent
deriving Repr, DecidableEq

/-- Environment of the Phase 3 verification: the provider address list (or
thrown error) produced by the n-th queryIPNI call, and the wall time each call
consumes (its HTTPS round-trip). -/
structure VerifyEnv where
  query : Nat → Except String (List String)
  queryTime : Nat → Nat

/-- Environment of Phase 1: the result of the n-th pdpServer.getPieceStatus
poll (a thrown error is swallowed by the loop). -/
structure SdkPieceStatus where
  status : String
  indexed : Bool
  advertised : Bool
  retrieved : Bool
  retrievedAt : Option Nat
deriving Repr, DecidableEq

structure MonitorEnv where
  poll : Nat → Except String SdkPieceStatus

/-- PieceStatus as tracked by monitorPieceStatus: the SDK fields plus the
locally stamped first-seen indexed/advertised timestamps. -/
structure PieceStatus where
  status : String
  indexed : Bool
  advertised : Bool
  retrieved : Bool
  retrievedAt : Option Nat
  indexedAt : Option Nat
  advertisedAt : Option Nat
deriving Repr, DecidableEq

structure PieceMonitoringResult where
  success : Bool
  finalStatus : PieceStatus
  checks : Nat
  durationMs : Nat
deriving Repr, DecidableEq

/-- A failed identifier with the reason (and the addresses seen, if any). -/
structure FailedCID where
  cid : String
  reason : String
  addrs : Option (List String) := none
deriving Repr, DecidableEq

structure SingleCIDVerificationResult where
  verified : Bool
  reason : Option String := none
  addrs : Option (List String) := none
deriving Repr, DecidableEq

structure RootCIDVerificationResult where
  verified : Bool
  failed : Option FailedCID := none
deriving Repr, DecidableEq

structure IPNIVerificationResult where
  verified : Nat
  unverified : Nat
  total : Nat
  rootCIDVerified : Bool
  durationMs : Nat
  failedCIDs : List FailedCID
  verifiedAt : Nat
deriving Repr, DecidableEq

structure MonitorAndVerifyResult where
  monitoringResult : PieceMonitoringResult
  ipniResult : IPNIVerificationResult
deriving Repr, DecidableEq

/-- Advance the state by one IPNI lookup call. -/
def VState.afterLookup (st : VState) (env : VerifyEnv) (cid : String) (ok : Bool) : VState :=
  { st with now := st.now + env.queryTime st.calls, calls := st.calls + 1,
            log := st.log ++ [VEvent.lookup cid ok] }

/-- Advance the state by one awaited setTimeout. -/
def VState.afterSleep (st : VState) (ms : Nat) : VState :=
  { st with now := st.now + ms, log := st.log ++ [VEvent.sleep ms] }

/-- IpniAddonStrategy.verifySingleCID: queryIPNI, then the address checks; a
thrown lookup error yields an unverified result carrying the message. -/
def verifySingleCID (env : VerifyEnv) (expected cid : String) (st : VState) :
    SingleCIDVerificationResult × VState :=
  match env.query st.calls with
  | .error msg =>
    ({ verified := false, reason := some msg }, st.afterLookup env cid false)
  | .ok addrs =>
    if addrs.length = 0 then
      ({ verified := false, reason := some "not found", addrs := some addrs },
       st.afterLookup env cid false)
    else if addrs.contains expected then
      ({ verified := true }, st.afterLookup env cid true)
    else
      ({ verified := false, reason := some "wrong multiaddr", addrs := some addrs },
       st.afterLookup env cid false)

/-- The retry loop of IpniAddonStrategy.verifyRootCID, with the remaining
iteration count (maxRetries = 5 at the top level) as fuel: check the phase
timeout, look the root up, succeed on a verified lookup, sleep the retry
interval before every non-final retry, and give up after the last one. -/
def verifyRootCIDLoop (env : VerifyEnv) (rootCID expected : String) (maxDurationMs startTime : Nat) :
    Nat → VState → RootCIDVerificationResult × VState
  | 0, st => ({ verified := false, failed := some { cid := rootCID, reason := "max retries exceeded" } }, st)
  | Nat.succ fuel, st =>
    if st.now - startTime > maxDurationMs then
      ({ verified := false, failed := some { cid := rootCID, reason := "timeout" } }, st)
    else
      let r := verifySingleCID env expected rootCID st
      if r.1.verified then
        ({ verified := true }, r.2)
      else if 0 < fuel then
        verifyRootCIDLoop env rootCID expected maxDurationMs startTime fuel
          (r.2.afterSleep IPNI_VERIFICATION_RETRY_INTERVAL_MS)
      else
        ({ verified := false,
           failed := some { cid := rootCID, reason := r.1.reason.getD "unknown", addrs := r.1.addrs } }, r.2)

/-- IpniAddonStrategy.verifyRootCID: up to 5 attempts. -/
def verifyRootCID (env : VerifyEnv) (rootCID expected : String) (maxDurationMs startTime : Nat)
    (st : VState) : RootCIDVerificationResult × VState :=
  verifyRootCIDLoop env rootCID expected maxDurationMs startTime 5 st

/-- IpniAddonStrategy.verifyBlockCIDs: one lookup per block identifier in
order, counting successes and collecting failures, breaking out as soon as the
elapsed time exceeds the phase timeout. -/
def verifyBlockCIDsLoop (env : VerifyEnv) (expected : String) (maxDurationMs startTime : Nat) :
    List String → VState → (Nat × List FailedCID) × VState
  | [], st => ((0, []), st)
  | cid :: rest, st =>
    if st.now - startTime > maxDurationMs then ((0, []), st)
    else
      let r := verifySingleCID env expected cid st
      let tail := verifyBlockCIDsLoop env expected maxDurationMs startTime rest r.2
      if r.1.verified then
        ((tail.1.1 + 1, tail.1.2), tail.2)
      else
        ((tail.1.1,
          { cid := cid, reason := r.1.reason.getD "unknown", addrs := r.1.addrs } :: tail.1.2), tail.2)

/-- IpniAddonStrategy.verifyIPNIAdvertisement: verify the root identifier
first (the minimum requirement); only when it verifies, verify the block
identifiers; report counts, the failed identifiers and the verification
timestamp. -/
def verifyIPNIAdvertisement (env : VerifyEnv) (rootCID : String) (blockCIDs : List String)
    (expected : String) (maxDurationMs : Nat) (st : VState) : IPNIVerificationResult × VState :=
  let startTime := st.now
  let root := verifyRootCID env rootCID expected maxDurationMs startTime st
  let failed0 : List FailedCID := match root.1.failed with | some f => [f] | none => []
  let blocks :=
    if root.1.verified then verifyBlockCIDsLoop env expected maxDurationMs startTime blockCIDs root.2
    else ((0, []), root.2)
  let successCount := (if root.1.verified then 1 else 0) + blocks.1.1
  let totalCIDs := blockCIDs.length + 1
  ({ verified := successCount,
     unverified := totalCIDs - successCount,
     total := totalCIDs,
     rootCIDVerified := root.1.verified,
     durationMs := blocks.2.now - startTime,
     failedCIDs := failed0 ++ blocks.1.2,
     verifiedAt := blocks.2.now }, blocks.2)

/-- The lastStatus value monitorPieceStatus starts from. -/
def initialPieceStatus : PieceStatus :=
  { status := "", indexed := false, advertised := false, retrieved := false,
    retrievedAt := none, indexedAt := none, advertisedAt := none }

/-- The polling loop of IpniAddonStrategy.monitorPieceStatus. Each iteration
checks the deadline, polls the provider (a poll error is swallowed), stamps
the first-seen indexed/advertised transitions, returns success the first time
a retrieval timestamp appears, and otherwise sleeps the polling interval.
When the deadline passes the loop throws. Polls are modelled as instantaneous
(the clock advances by the polling interval per iteration). Fuel bounds the
iteration count; at the top level it exceeds the number of iterations the
deadline can admit, so the fuel-exhaustion branch (reachable only for a zero
interval, where the JS loop would never terminate) returns the same timeout
error. -/
def monitorLoop (env : MonitorEnv) (maxDurationMs pollIntervalMs startTime : Nat) :
    Nat → VState → PieceStatus → Nat → Except String PieceMonitoringResult × VState
  | 0, st, _, _ => (.error "Timeout waiting for piece retrieval", st)
  | Nat.succ fuel, st, lastStatus, checkCount =>
    if st.now - startTime < maxDurationMs then
      let checkCount := checkCount + 1
      match env.poll st.polls with
      | .error _ =>
        monitorLoop env maxDurationMs pollIntervalMs startTime fuel
          { st with polls := st.polls + 1, now := st.now + pollIntervalMs } lastStatus checkCount
      | .ok sdk =>
        let cur0 : PieceStatus :=
          { status := sdk.status, indexed := sdk.indexed, advertised := sdk.advertised,
            retrieved := sdk.retrieved, retrievedAt := sdk.retrievedAt,
            indexedAt := lastStatus.indexedAt, advertisedAt := lastStatus.advertisedAt }
        let cur1 := if cur0.indexed && !lastStatus.indexed then { cur0 with indexedAt := some st.now } else cur0
        let cur2 := if cur1.advertised && !lastStatus.advertised then { cur1 with advertisedAt := some st.now } else cur1
        if cur2.retrievedAt.isSome && !lastStatus.retrievedAt.isSome then
          (.ok { success := true, finalStatus := cur2, checks := checkCount,
                 durationMs := st.now - startTime },
           { st with polls := st.polls + 1 })
        else
          monitorLoop env maxDurationMs pollIntervalMs startTime fuel
            { st with polls := st.polls + 1, now := st.now + pollIntervalMs } cur2 checkCount
    else (.error "Timeout waiting for piece retrieval", st)

/-- IpniAddonStrategy.monitorPieceStatus (Phase 1). -/
def monitorPieceStatus (env : MonitorEnv) (maxDurationMs pollIntervalMs : Nat) (st : VState) :
    Except String PieceMonitoringResult × VState :=
  monitorLoop env maxDurationMs pollIntervalMs st.now (maxDurationMs / pollIntervalMs + 1)
    st initialPieceStatus 0

/-- The synthetic monitoring result monitorAndVerifyIPNI substitutes when
Phase 1 throws: all flags false, status "timeout", zero checks. -/
def timeoutFallbackResult (statusTimeoutMs : Nat) : PieceMonitoringResult :=
  { success := false,
    finalStatus := { status := "timeout", indexed := false, advertised := false,
                     retrieved := false, retrievedAt := none, indexedAt := none,
                     advertisedAt := none },
    checks := 0, durationMs := statusTimeoutMs }

/-- IpniAddonStrategy.monitorAndVerifyIPNI: Phase 1 status polling (with the
catch substituting the synthetic timeout status), Phase 2 settle delay when a
retrieve request was seen, then Phase 3 external verification. -/
def monitorAndVerifyIPNI (menv : MonitorEnv) (venv : VerifyEnv) (blockCIDs : List String)
    (rootCID expected : String) (statusTimeoutMs ipniTimeoutMs pollIntervalMs : Nat)
    (st : VState) : MonitorAndVerifyResult × VState :=
  let mon := monitorPieceStatus menv statusTimeoutMs pollIntervalMs st
  let monitoringResult := match mon.1 with
    | .ok r => r
    | .error _ => timeoutFallbackResult statusTimeoutMs
  let st1 := mon.2
  let st2 := if monitoringResult.finalStatus.retrieved then st1.afterSleep IPNI_VERIFICATION_DELAY_MS else st1
  let ipni := verifyIPNIAdvertisement venv rootCID blockCIDs expected ipniTimeoutMs st2
  ({ monitoringResult := monitoringResult, ipniResult := ipni.1 }, ipni.2)

/-- IpniAddonStrategy.updateDealWithIpniMetrics, deal-mutation part: derive
the verification status, stamp first-occurrence stage timestamps and
time-to-stage metrics relative to the upload end time, and record the
verified/unverified counts. now is the wall clock at entry. -/
def updateDealWithIpniMetrics (deal : Deal) (result : MonitorAndVerifyResult) (now : Nat) : Deal :=
  let finalStatus := result.monitoringResult.finalStatus
  let ipniResult := result.ipniResult
  let uploadEndTime : Nat := deal.uploadEndTime.getD now
  let deal :=
    { deal with ipniStatus := some (
        if ipniResult.rootCIDVerified then .verified
        else if finalStatus.retrieved then .sp_received_retrieve_request
        else if finalStatus.advertised then .sp_advertised
        else if finalStatus.indexed then .sp_indexed
        else .failed) }
  let deal :=
    if finalStatus.indexed && deal.ipniIndexedAt.isNone then
      let ts := finalStatus.indexedAt.getD now
      { deal with ipniIndexedAt := some ts,
                  ipniTimeToIndexMs := some ((ts : Int) - (uploadEndTime : Int)) }
    else deal
  let deal :=
    if finalStatus.advertised && deal.ipniAdvertisedAt.isNone then
      let ts := finalStatus.advertisedAt.getD now
      { deal with ipniAdvertisedAt := some ts,
                  ipniTimeToAdvertiseMs := some ((ts : Int) - (uploadEndTime : Int)) }
    else deal
  let deal :=
    match finalStatus.retrievedAt with
    | some ts =>
      if deal.ipniRetrievedAt.isNone then
        { deal with ipniRetrievedAt := some ts,
                    ipniTimeToRetrieveMs := some ((ts : Int) - (uploadEndTime : Int)) }
      else deal
    | none => deal
  let deal :=
    if ipniResult.rootCIDVerified && deal.ipniVerifiedAt.isNone then
      { deal with ipniVerifiedAt := some ipniResult.verifiedAt,
                  ipniTimeToVerifyMs := some ((ipniResult.verifiedAt : Int) - (uploadEndTime : Int)) }
    else deal
  { deal with ipniVerifiedCidsCount := some ipniResult.verified,
              ipniUnverifiedCidsCount := some ipniResult.unverified }

/-- The error path of startIpniMonitoring: mark the IPNI sub-state failed
(the primary status is untouched) before the save attempt. -/
def ipniMarkFailed (deal : Deal) : Deal :=
  { deal with ipniStatus := some IpniStatus.failed }

/-! ## Theorems: preprocessing pipeline (C6, C7) -/

/-- sortAddonsByPriority sorts ascending by priority. -/
theorem sortAddonsByPriority_sorted (addons : List Addon) :
    (sortAddonsByPriority addons).Pairwise (fun a b => a.priority ≤ b.priority) :=
  List.sorted_insertionSort addonLE addons

/-- Inserting an addon of priority p puts it in front of every other addon of
priority p already present (the skipped prefix has strictly smaller
priorities). -/
theorem filter_orderedInsert_eq (p : Int) (x : Addon) (hx : x.priority = p) :
    ∀ m : List Addon,
      (List.orderedInsert addonLE x m).filter (fun a => decide (a.priority = p))
        = x :: m.filter (fun a => decide (a.priority = p))
  | [] => by simp [hx]
  | b :: m => by
    by_cases hle : addonLE x b
    · simp [List.orderedInsert, hle, hx]
    · have hb : b.priority ≠ p := by
        intro hbp
        exact hle (by simp [addonLE, hx, hbp])
      simp only [List.orderedInsert, if_neg hle, List.filter_cons]
      rw [filter_orderedInsert_eq p x hx m]
      simp [hb]

/-- Inserting an addon of a different priority leaves the priority-p sublist
unchanged. -/
theorem filter_orderedInsert_ne (p : Int) (x : Addon) (hx : x.priority ≠ p) :
    ∀ m : List Addon,
      (List.orderedInsert addonLE x m).filter (fun a => decide (a.priority = p))
        = m.filter (fun a => decide (a.priority = p))
  | [] => by simp [hx]
  | b :: m => by
    by_cases hle : addonLE x b
    · simp [List.orderedInsert, hle, hx]
    · simp only [List.orderedInsert, if_neg hle, List.filter_cons]
      rw [filter_orderedInsert_ne p x hx m]

/-- sortAddonsByPriority is stable: for every priority value, the sublist of
addons carrying that priority is unchanged, so equal-priority addons keep
their input (registration) order. -/
theorem sortAddonsByPriority_stable (addons : List Addon) (p : Int) :
    (sortAddonsByPriority addons).filter (fun a => decide (a.priority = p))
      = addons.filter (fun a => decide (a.priority = p)) := by
  unfold sortAddonsByPriority
  induction addons with
  | nil => rfl
  | cons x l ih =>
    simp only [List.insertionSort]
    by_cases hx : x.priority = p
    · rw [filter_orderedInsert_eq p x hx, ih]
      simp [List.filter_cons, hx]
    · rw [filter_orderedInsert_ne p x hx, ih]
      simp [List.filter_cons, hx]

/-- A successful pipeline run applies every addon it was given, in order. -/
theorem executePipelineFrom_appliedAddons :
    ∀ (addons : List Addon) (ctx : AddonExecutionContext) (applied : List String)
      (out : PipelineOutput),
      executePipelineFrom addons ctx applied = .ok out →
      out.appliedAddons = applied ++ addons.map Addon.name := by
  intro addons
  induction addons with
  | nil =>
    intro ctx applied out h
    simp only [executePipelineFrom, Except.ok.injEq] at h
    simp [← h]
  | cons addon rest ih =>
    intro ctx applied out h
    simp only [executePipelineFrom] at h
    split at h
    · exact absurd h (by simp)
    · split at h
      · exact absurd h (by simp)
      · have := ih _ _ _ h
        simpa using this

/-- C6: for every configuration with at least one applicable addon (and every
successful pipeline run), the applied-addon list is the applicable addons
sorted ascending by their registered integer priority, where the sort is
stable: for each priority value the addons carrying it keep their
registration order. -/
theorem c6_applied_addons_sorted_stable (config : DealConfiguration)
    (out : DealPreprocessingResult)
    (h1 : getApplicableAddons config ≠ [])
    (h2 : preprocessDeal config = .ok out) :
    out.appliedAddons = (sortAddonsByPriority (getApplicableAddons config)).map Addon.name ∧
    (sortAddonsByPriority (getApplicableAddons config)).Pairwise
      (fun a b => a.priority ≤ b.priority) ∧
    (∀ p : Int,
      (sortAddonsByPriority (getApplicableAddons config)).filter (fun a => decide (a.priority = p))
        = (getApplicableAddons config).filter (fun a => decide (a.priority = p))) := by
  refine ⟨?_, sortAddonsByPriority_sorted _, fun p => sortAddonsByPriority_stable _ p⟩
  have hne : (getApplicableAddons config).isEmpty = false := by
    simpa [List.isEmpty_iff] using h1
  simp only [preprocessDeal, hne, Bool.false_eq_true, if_false] at h2
  cases hrun : executePreprocessingPipeline (sortAddonsByPriority (getApplicableAddons config)) config with
  | error msg => rw [hrun] at h2; exact absurd h2 (by simp)
  | ok p =>
    rw [hrun] at h2
    simp only [Except.ok.injEq] at h2
    have happ := executePipelineFrom_appliedAddons _ _ _ _ hrun
    rw [← h2]
    simpa using happ

/-- A CDN-only configuration over a 3-byte payload (concrete test input). -/
def cfgCdnOnly : DealConfiguration :=
  { enableCDN := true
    enableIpni := false
    dataFile := { data := [1, 2, 3], size := 3, name := "f" } }

/-- Witness for C6: on the CDN-only configuration the pipeline succeeds and
applies exactly the CDN addon, the sorted applicable singleton. -/
theorem c6_applied_addons_sorted_stable_witness :
    getApplicableAddons cfgCdnOnly ≠ [] ∧
    ∃ out, preprocessDeal cfgCdnOnly = .ok out ∧
      out.appliedAddons = (sortAddonsByPriority (getApplicableAddons cfgCdnOnly)).map Addon.name := by
  have hga : getApplicableAddons cfgCdnOnly = [cdnAddon] := rfl
  have hne : getApplicableAddons cfgCdnOnly ≠ [] := by rw [hga]; simp
  have hok : preprocessDeal cfgCdnOnly = .ok
      { processedData := { data := [1, 2, 3], size := 3, name := "f" },
        metadata := [("cdn", AddonMetadata.cdn { enabled := true, provider := "fil-beam" })],
        synapseConfig := { dataSetMetadata := [(WITH_CDN_KEY, "")], pieceMetadata := [] },
        appliedAddons := ["cdn"] } := rfl
  exact ⟨hne, _, hok, (c6_applied_addons_sorted_stable _ _ hne hok).1⟩

/-- C7: when no registered addon is applicable, preprocessDeal falls back to
executing exactly the default pass-through Direct addon: it succeeds and the
applied-addon list is exactly the direct addon's name. -/
theorem c7_fallback_to_direct (config : DealConfiguration)
    (h : getApplicableAddons config = []) :
    ∃ out, preprocessDeal config = .ok out ∧ out.appliedAddons = [directAddon.name] := by
  refine ⟨?_, ?_, ?_⟩
  · exact
      { processedData := { data := config.dataFile.data, size := config.dataFile.size,
                           name := config.dataFile.name },
        metadata := [("direct_sp", AddonMetadata.direct)],
        synapseConfig := { dataSetMetadata := [], pieceMetadata := [] },
        appliedAddons := ["direct_sp"] }
  · simp [preprocessDeal, h, sortAddonsByPriority, executePreprocessingPipeline,
      executePipelineFrom, directAddon, runValidate, recordSet,
      mergeSynapseConfigs, mergeSynapseConfigStep]
  · rfl

/-- A configuration with both addon flags off (concrete test input). -/
def cfgNoAddons : DealConfiguration :=
  { enableCDN := false
    enableIpni := false
    dataFile := { data := [1], size := 1, name := "f" } }

/-- Witness for C7: the all-flags-off configuration applies exactly the direct
addon. -/
theorem c7_fallback_to_direct_witness :
    getApplicableAddons cfgNoAddons = [] ∧
    ∃ out, preprocessDeal cfgNoAddons = .ok out ∧ out.appliedAddons = [directAddon.name] :=
  ⟨rfl, c7_fallback_to_direct _ rfl⟩

/-! ## Theorems: merged Synapse configuration (C8) -/

theorem alookup_append {α : Type} (l1 l2 : List (String × α)) (k : String) :
    alookup (l1 ++ l2) k
      = match alookup l1 k with
        | some v => some v
        | none => alookup l2 k := by
  induction l1 with
  | nil => simp [alookup]
  | cons kv rest ih =>
    by_cases h : kv.1 = k
    · simp [alookup, h]
    · simpa [alookup, h] using ih

/-- Looking a key up in a key-preserving value rewrite of an association
list rewrites the first hit. -/
theorem alookup_map_value {α : Type} (g : String → α → α) (l : List (String × α)) (k : String) :
    alookup (l.map (fun kv => (kv.1, g kv.1 kv.2))) k = (alookup l k).map (g k) := by
  induction l with
  | nil => simp [alookup]
  | cons kv rest ih =>
    by_cases h : kv.1 = k
    · subst h; simp [alookup]
    · simpa [alookup, h] using ih

/-- Dropping entries whose keys satisfy an independent condition that k fails
does not change the lookup of k. -/
theorem alookup_filter_of_keep {α : Type} (pkey : String → Bool) (l : List (String × α))
    (k : String) (hk : pkey k = true) :
    alookup (l.filter (fun kv => pkey kv.1)) k = alookup l k := by
  induction l with
  | nil => simp [alookup]
  | cons kv rest ih =>
    by_cases h : kv.1 = k
    · subst h; simp [List.filter_cons, hk, alookup]
    · by_cases hp : pkey kv.1 <;> simp [List.filter_cons, hp, alookup, h, ih]

/-- JS spread merge looks up right-to-left: the later record wins. -/
theorem alookup_objMerge (a b : List (String × String)) (k : String) :
    alookup (objMerge a b) k
      = match alookup b k with
        | some v => some v
        | none => alookup a k := by
  unfold objMerge
  rw [alookup_append]
  rw [alookup_map_value (fun k1 v => (alookup b k1).getD v)]
  cases ha : alookup a k with
  | some v =>
    cases hb : alookup b k <;> simp [Option.map, Option.getD, hb]
  | none =>
    have hkeep : alookup (b.filter (fun kv => (alookup a kv.1).isNone)) k = alookup b k :=
      alookup_filter_of_keep (fun s => (alookup a s).isNone) b k (by simp [ha])
    cases hb : alookup b k <;> simp [Option.map, hkeep, hb, ha]

/-- An addon's exported record for one namespace (none when the addon has no
getSynapseConfig capability or exports nothing for the namespace). -/
def addonExport (select : SynapseConfig → Option (List (String × String)))
    (md : DealMetadata) (addon : Addon) : Option (List (String × String)) :=
  match addon.getSynapseConfig with
  | none => none
  | some get => select (get md)

/-- Spec-side description of the merge for one namespace: the value of key k
is the one exported by the last addon in execution order that exports k
(later addons take precedence), and absent exactly when no addon exports k. -/
def lastExported (select : SynapseConfig → Option (List (String × String))) :
    List Addon → DealMetadata → String → Option String
  | [], _, _ => none
  | addon :: rest, md, k =>
    match lastExported select rest md k with
    | some v => some v
    | none => (addonExport select md addon).bind (fun m => alookup m k)

theorem mergeSynapseConfigStep_dataSet (md : DealMetadata) (merged : MergedSynapseConfig)
    (addon : Addon) :
    (mergeSynapseConfigStep md merged addon).dataSetMetadata
      = match addonExport (fun c => c.dataSetMetadata) md addon with
        | some m => objMerge merged.dataSetMetadata m
        | none => merged.dataSetMetadata := by
  unfold mergeSynapseConfigStep addonExport
  cases hg : addon.getSynapseConfig with
  | none => rfl
  | some get =>
    cases h1 : (get md).dataSetMetadata <;> cases h2 : (get md).pieceMetadata <;>
      simp [h1, h2]

theorem mergeSynapseConfigStep_piece (md : DealMetadata) (merged : MergedSynapseConfig)
    (addon : Addon) :
    (mergeSynapseConfigStep md merged addon).pieceMetadata
      = match addonExport (fun c => c.pieceMetadata) md addon with
        | some m => objMerge merged.pieceMetadata m
        | none => merged.pieceMetadata := by
  unfold mergeSynapseConfigStep addonExport
  cases hg : addon.getSynapseConfig with
  | none => rfl
  | some get =>
    cases h1 : (get md).dataSetMetadata <;> cases h2 : (get md).pieceMetadata <;>
      simp [h1, h2]

/-- Generic fold lemma: looking k up in the namespace projection of the fold
over addons is governed by the last addon exporting k. -/
theorem mergeSynapseConfigs_fold (md : DealMetadata) (k : String)
    (select : SynapseConfig → Option (List (String × String)))
    (proj : MergedSynapseConfig → List (String × String))
    (hstep : ∀ (merged : MergedSynapseConfig) (addon : Addon),
      proj (mergeSynapseConfigStep md merged addon)
        = match addonExport select md addon with
          | some m => objMerge (proj merged) m
          | none => proj merged) :
    ∀ (addons : List Addon) (acc : MergedSynapseConfig),
      alookup (proj (addons.foldl (mergeSynapseConfigStep md) acc)) k
        = match lastExported select addons md k with
          | some v => some v
          | none => alookup (proj acc) k
  | [], acc => by simp [lastExported]
  | addon :: rest, acc => by
    rw [List.foldl_cons, mergeSynapseConfigs_fold md k select proj hstep rest]
    have haddon : alookup (proj (mergeSynapseConfigStep md acc addon)) k
        = match (addonExport select md addon).bind (fun m => alookup m k) with
          | some v => some v
          | none => alookup (proj acc) k := by
      rw [hstep]
      cases hexp : addonExport select md addon with
      | none => simp
      | some m =>
        rw [alookup_objMerge]
        rfl
    rw [haddon]
    show (match lastExported select rest md k with
          | some v => some v
          | none =>
            match (addonExport select md addon).bind (fun m => alookup m k) with
            | some v => some v
            | none => alookup (proj acc) k)
        = match lastExported select (addon :: rest) md k with
          | some v => some v
          | none => alookup (proj acc) k
    rw [show lastExported select (addon :: rest) md k
        = match lastExported select rest md k with
          | some v => some v
          | none => (addonExport select md addon).bind (fun m => alookup m k) from rfl]
    cases lastExported select rest md k with
    | some v => rfl
    | none =>
      cases (addonExport select md addon).bind (fun m => alookup m k) <;> rfl

/-- C8: for each namespace (dataset-level and piece-level), the merged
provider configuration has exactly the union of the keys exported by the
addons in execution order, and for each key the value of the last-executing
addon that exports it (last-write-wins): the lookup of any key in the merge
equals the spec-side last-exported value, which is in particular absent
exactly when no addon exports the key. -/
theorem c8_merge_last_write_wins (addons : List Addon) (md : DealMetadata) (k : String) :
    alookup (mergeSynapseConfigs addons md).dataSetMetadata k
      = lastExported (fun c => c.dataSetMetadata) addons md k ∧
    alookup (mergeSynapseConfigs addons md).pieceMetadata k
      = lastExported (fun c => c.pieceMetadata) addons md k := by
  constructor
  · have h := mergeSynapseConfigs_fold md k (fun c => c.dataSetMetadata)
      (fun m => m.dataSetMetadata)
      (fun merged addon => mergeSynapseConfigStep_dataSet md merged addon)
      addons { dataSetMetadata := [], pieceMetadata := [] }
    unfold mergeSynapseConfigs
    rw [h]
    cases lastExported (fun c => c.dataSetMetadata) addons md k <;> simp [alookup]
  · have h := mergeSynapseConfigs_fold md k (fun c => c.pieceMetadata)
      (fun m => m.pieceMetadata)
      (fun merged addon => mergeSynapseConfigStep_piece md merged addon)
      addons { dataSetMetadata := [], pieceMetadata := [] }
    unfold mergeSynapseConfigs
    rw [h]
    cases lastExported (fun c => c.pieceMetadata) addons md k <;> simp [alookup]

/-! ## Theorems: batch fan-out (C5) -/

/-- The group slicing partitions the provider list exactly. -/
theorem chunkProviders_flatten :
    ∀ (providers : List String) (n : Nat), n ≠ 0 →
      (chunkProviders providers n).flatten = providers
  | providers, n, hn => by
    rw [chunkProviders]
    by_cases he : providers.isEmpty
    · have : providers = [] := List.isEmpty_iff.mp he
      simp [he, this]
    · have hcond : (providers.isEmpty || n == 0) = false := by
        simp [he, hn]
      rw [dif_neg (by simp [hcond])]
      have ih := chunkProviders_flatten (providers.drop n) n hn
      simp [List.flatten_cons, ih, List.take_append_drop]
  termination_by providers _ _ => providers.length
  decreasing_by
    have h1 : providers ≠ [] := by simpa [List.isEmpty_iff] using he
    have h2 : 0 < n := Nat.pos_of_ne_zero hn
    have h3 : 0 < providers.length := List.length_pos.mpr h1
    simp only [List.length_drop]
    omega

/-- C5: the batch entry point returns exactly the Deals of the succeeding
providers, in order — a provider whose single-deal attempt rejects contributes
no element — and the batch computation is total (every provider outcome,
fulfilled or rejected, becomes a result record; nothing propagates). -/
theorem c5_batch_returns_exactly_successes
    (createDealFn : String → Except String Deal) (providers : List String) :
    createDealsForAllProviders createDealFn providers
      = providers.filterMap (fun p => (createDealFn p).toOption) := by
  unfold createDealsForAllProviders processProvidersInParallel
  have hflat : ((chunkProviders providers 10).map (processBatch createDealFn)).flatten
      = processBatch createDealFn providers := by
    unfold processBatch
    rw [← List.map_flatten]
    rw [chunkProviders_flatten providers 10 (by decide)]
  rw [hflat]
  unfold processBatch
  rw [List.filterMap_map]
  apply List.filterMap_congr
  intro p _
  cases h : createDealFn p <;> simp [h, Except.toOption]

/-! ## Theorems: single-deal failure handling and status monotonicity (C4, C9) -/

/-- The error thrown during storage-context creation or upload of one
createDeal run, if any (none when the run succeeds). -/
def envThrownError (env : CreateDealEnv) : Option String :=
  match env.createStorage with
  | .error msg => some msg
  | .ok _ =>
    match env.upload with
    | .ok _ _ _ => none
    | .failBeforeCallbacks msg => some msg
    | .failAfterUploadComplete _ msg => some msg
    | .failAfterPieceAdded _ _ msg => some msg

/-- Every save attempted by the upload-complete addon hooks is tagged as a
hook save, not a cleanup save. -/
theorem addonsHandleUploadComplete_saves_tag (deal : Deal) (applied : List String) :
    ∀ s ∈ (addonsHandleUploadComplete deal applied).2, s.1 = SaveOrigin.addonHook := by
  unfold addonsHandleUploadComplete ipniOnUploadComplete
  split
  · split
    · simp
    · simp
  · simp

/-- Filtering the cleanup saves out of hook saves followed by the single
cleanup save leaves exactly that cleanup save. -/
theorem filter_cleanup_append (l : List (SaveOrigin × Deal)) (d : Deal)
    (hl : ∀ s ∈ l, s.1 = SaveOrigin.addonHook) :
    (l ++ [(SaveOrigin.cleanup, d)]).filter (fun s => decide (s.1 = SaveOrigin.cleanup))
      = [(SaveOrigin.cleanup, d)] := by
  induction l with
  | nil => simp
  | cons s rest ih =>
    have hs := hl s (by simp)
    have hrest : ∀ x ∈ rest, x.1 = SaveOrigin.addonHook := fun x hx => hl x (by simp [hx])
    simp [List.filter_cons, hs, ih hrest]

/-- C4: for every error thrown during storage-context creation or upload, the
deal ends FAILED with errorMessage equal to the thrown message, the original
error is re-raised to the caller, the guaranteed-cleanup step makes exactly
one save attempt (of the failed record), and whether that save attempt itself
fails never changes what the caller sees. -/
theorem c4_failure_sets_failed_and_rethrows (env : CreateDealEnv)
    (providerAddress walletAddress : String) (input : DealPreprocessingResult) (e : String)
    (h : envThrownError env = some e) :
    (createDeal env providerAddress walletAddress input).result = .error e ∧
    (createDeal env providerAddress walletAddress input).finalDeal.status = .failed ∧
    (createDeal env providerAddress walletAddress input).finalDeal.errorMessage = some e ∧
    ((createDeal env providerAddress walletAddress input).saves.filter
        (fun s => decide (s.1 = SaveOrigin.cleanup)))
      = [(SaveOrigin.cleanup, (createDeal env providerAddress walletAddress input).finalDeal)] ∧
    (∀ b : Bool,
      (createDeal { env with saveFails := b } providerAddress walletAddress input).result
        = .error e) := by
  cases hcs : env.createStorage with
  | error msg =>
    simp only [envThrownError, hcs] at h
    obtain rfl : msg = e := Option.some.inj h
    refine ⟨?_, ?_, ?_, ?_, fun b => ?_⟩ <;> simp [createDeal, hcs]
  | ok dsid =>
    cases hu : env.upload with
    | ok r pc tx => simp [envThrownError, hcs, hu] at h
    | failBeforeCallbacks msg =>
      simp only [envThrownError, hcs, hu] at h
      obtain rfl : msg = e := Option.some.inj h
      refine ⟨?_, ?_, ?_, ?_, fun b => ?_⟩ <;> simp [createDeal, hcs, hu]
    | failAfterUploadComplete pc msg =>
      simp only [envThrownError, hcs, hu] at h
      obtain rfl : msg = e := Option.some.inj h
      refine ⟨?_, ?_, ?_, ?_, fun b => ?_⟩
      · simp [createDeal, hcs, hu]
      · simp [createDeal, hcs, hu]
      · simp [createDeal, hcs, hu]
      · simp only [createDeal, hcs, hu]
        exact filter_cleanup_append _ _ (addonsHandleUploadComplete_saves_tag _ _)
      · simp [createDeal, hcs, hu]
    | failAfterPieceAdded pc tx msg =>
      simp only [envThrownError, hcs, hu] at h
      obtain rfl : msg = e := Option.some.inj h
      refine ⟨?_, ?_, ?_, ?_, fun b => ?_⟩
      · simp [createDeal, hcs, hu]
      · simp [createDeal, hcs, hu]
      · simp [createDeal, hcs, hu]
      · simp only [createDeal, hcs, hu]
        exact filter_cleanup_append _ _ (addonsHandleUploadComplete_saves_tag _ _)
      · simp [createDeal, hcs, hu]

/-- Concrete environment whose storage-context creation rejects (and whose
cleanup save attempt itself fails). -/
def envStorageFails : CreateDealEnv :=
  { providerFound := true
    createStorage := .error "Storage creation failed"
    upload := .failBeforeCallbacks "unreachable"
    saveFails := true
    t0 := 0, t1 := 1, t2 := 2, t3 := 3 }

/-- A minimal preprocessing result (no applied addons). -/
def inputEmpty : DealPreprocessingResult :=
  { processedData := { data := [], size := 0, name := "f" }
    metadata := []
    synapseConfig := { dataSetMetadata := [], pieceMetadata := [] }
    appliedAddons := [] }

/-- Witness for C4: the storage-creation failure scenario of the spec. -/
theorem c4_failure_sets_failed_and_rethrows_witness :
    envThrownError envStorageFails = some "Storage creation failed" ∧
    ((createDeal envStorageFails "0xP" "0xW" inputEmpty).result
        = .error "Storage creation failed" ∧
     (createDeal envStorageFails "0xP" "0xW" inputEmpty).finalDeal.status = .failed ∧
     (createDeal envStorageFails "0xP" "0xW" inputEmpty).finalDeal.errorMessage
        = some "Storage creation failed" ∧
     ((createDeal envStorageFails "0xP" "0xW" inputEmpty).saves.filter
         (fun s => decide (s.1 = SaveOrigin.cleanup)))
       = [(SaveOrigin.cleanup, (createDeal envStorageFails "0xP" "0xW" inputEmpty).finalDeal)] ∧
     (∀ b : Bool,
       (createDeal { envStorageFails with saveFails := b } "0xP" "0xW" inputEmpty).result
         = .error "Storage creation failed")) :=
  ⟨rfl, c4_failure_sets_failed_and_rethrows envStorageFails "0xP" "0xW" inputEmpty
    "Storage creation failed" rfl⟩

/-- A status assignment sequence in which a terminal state (DEAL_CREATED or
FAILED) is never followed by an earlier non-terminal state. -/
def NoRegression (trace : List DealStatus) : Prop :=
  trace.Pairwise (fun a b =>
    (a = DealStatus.deal_created ∨ a = DealStatus.failed) →
    (b = DealStatus.deal_created ∨ b = DealStatus.failed))

/-- C9: in every orchestrator execution (callbacks and error handling
included) the successive primary-status assignments never overwrite
DEAL_CREATED or FAILED with an earlier non-terminal status, and the detached
verification monitor (its metrics update, its pending-marking hook and its
failure path) never touches the primary status at all. -/
theorem c9_primary_status_never_regresses :
    (∀ (env : CreateDealEnv) (providerAddress walletAddress : String)
        (input : DealPreprocessingResult),
      NoRegression (createDeal env providerAddress walletAddress input).statusTrace) ∧
    (∀ (deal : Deal) (result : MonitorAndVerifyResult) (now : Nat),
      (updateDealWithIpniMetrics deal result now).status = deal.status) ∧
    (∀ deal : Deal, (ipniOnUploadComplete deal).1.status = deal.status) ∧
    (∀ deal : Deal, (ipniMarkFailed deal).status = deal.status) := by
  refine ⟨?_, ?_, ?_, ?_⟩
  · intro env pa wa input
    cases hcs : env.createStorage with
    | error msg => simp [createDeal, hcs, NoRegression, List.pairwise_cons]
    | ok dsid =>
      cases hu : env.upload <;>
        simp [createDeal, hcs, hu, NoRegression, List.pairwise_cons]
  · intro deal result now
    cases hr : result.monitoringResult.finalStatus.retrievedAt <;>
      simp [updateDealWithIpniMetrics, hr, apply_ite (f := Deal.status)]
  · intro deal
    unfold ipniOnUploadComplete
    split
    · rfl
    · rfl
  · intro deal
    rfl

/-! ## Theorems: verification status derivation (C2) -/

/-- Whether a verification stage was reached, per the monitoring flags and the
external-index result: VERIFIED by the root identifier verifying, the three
provider stages by their reported flags. -/
def stageReached (result : MonitorAndVerifyResult) : IpniStatus → Bool
  | .verified => result.ipniResult.rootCIDVerified
  | .sp_received_retrieve_request => result.monitoringResult.finalStatus.retrieved
  | .sp_advertised => result.monitoringResult.finalStatus.advertised
  | .sp_indexed => result.monitoringResult.finalStatus.indexed
  | _ => false

/-- Rank of each verification stage along the progression of §3. -/
def stageRank : IpniStatus → Nat
  | .pending => 0
  | .failed => 0
  | .sp_indexed => 1
  | .sp_advertised => 2
  | .sp_received_retrieve_request => 3
  | .verified => 4

/-- Spec-side state derivation: the highest-ranked stage reached, FAILED when
none was. -/
def highestStageReached (result : MonitorAndVerifyResult) : IpniStatus :=
  ([IpniStatus.sp_indexed, IpniStatus.sp_advertised,
    IpniStatus.sp_received_retrieve_request, IpniStatus.verified].filter
      (fun s => stageReached result s)).foldl
    (fun acc s => if stageRank acc ≤ stageRank s then s else acc) IpniStatus.failed

/-- C2: after monitoring and external verification complete, the deal's
verification status as persisted by updateDealWithIpniMetrics is exactly the
highest stage reached (VERIFIED over SP_RECEIVED_RETRIEVE_REQUEST over
SP_ADVERTISED over SP_INDEXED, and FAILED when none). -/
theorem c2_status_is_highest_stage_reached (deal : Deal) (result : MonitorAndVerifyResult)
    (now : Nat) :
    (updateDealWithIpniMetrics deal result now).ipniStatus
      = some (highestStageReached result) := by
  obtain ⟨⟨succ, ⟨sts, ind, adv, ret, rAt, iAt, aAt⟩, checks, dur⟩,
    ⟨v, uv, tot, rootV, dms, fcids, vAt⟩⟩ := result
  cases rootV <;> cases ret <;> cases adv <;> cases ind <;> cases rAt <;>
    simp [updateDealWithIpniMetrics, highestStageReached, stageReached, stageRank,
      apply_ite (f := Deal.ipniStatus)]

/-! ## Theorems: CAR conversion of empty and nonempty payloads (C10) -/

/-- C10: the IPNI data transform is only defined for nonempty payloads. For
any positive block bound, a payload of recorded size at least one byte
converts to at least one block with the first block's identifier as the root;
a zero-byte payload produces zero blocks, so taking the first block as the
root throws (the TypeError of reading .cid of undefined), and therefore IPNI
preprocessing of an empty payload always aborts the whole pipeline. -/
theorem c10_empty_payload_aborts :
    (∀ (maxBlockSize : Nat) (df : DataFile), 0 < maxBlockSize → 1 ≤ df.size →
      ∃ car, convertToCar maxBlockSize df = .ok car ∧ 1 ≤ car.blockCount ∧
        car.blockCIDs.head? = some car.rootCID) ∧
    (∀ (maxBlockSize : Nat) (df : DataFile), df.size = 0 →
      convertToCar maxBlockSize df
        = .error "Cannot read properties of undefined (reading 'cid')") ∧
    (∀ config : DealConfiguration, config.enableIpni = true → config.dataFile.size = 0 →
      preprocessDeal config
        = .error ("Deal preprocessing failed: Add-on ipfs_pin preprocessing failed: "
            ++ "IPNI preprocessing failed: Cannot read properties of undefined (reading 'cid')")) := by
  have hok : ∀ (maxBlockSize : Nat) (df : DataFile), 0 < maxBlockSize → 1 ≤ df.size →
      ∃ car, convertToCar maxBlockSize df = .ok car ∧ 1 ≤ car.blockCount ∧
        car.blockCIDs.head? = some car.rootCID := by
    intro m df hm hs
    have hnb : (df.size + m - 1) / m ≠ 0 := by
      have : m ≤ df.size + m - 1 := by omega
      have h1 : 1 ≤ (df.size + m - 1) / m := (Nat.one_le_div_iff hm).mpr this
      omega
    unfold convertToCar
    cases hr : List.range ((df.size + m - 1) / m) with
    | nil =>
      exact absurd (by simpa using congrArg List.length hr) hnb
    | cons i rest =>
      simp only [hr, List.map_cons]
      refine ⟨_, rfl, by simp, by simp⟩
  have herr : ∀ (maxBlockSize : Nat) (df : DataFile), df.size = 0 →
      convertToCar maxBlockSize df
        = .error "Cannot read properties of undefined (reading 'cid')" := by
    intro m df hs
    unfold convertToCar
    have : (df.size + m - 1) / m = 0 := by
      rw [hs]
      cases m with
      | zero => rfl
      | succ k => exact Nat.div_eq_of_lt (by omega)
    rw [this]
    rfl
  refine ⟨hok, herr, ?_⟩
  intro config hipni hzero
  have hconv := herr MAX_BLOCK_SIZE config.dataFile hzero
  obtain ⟨cdn, ipni, df⟩ := config
  simp only at hipni
  subst hipni
  simp only at hconv
  have hpp : ∀ cfg : DealConfiguration,
      ipniPreprocessData { currentData := df, accumulatedMetadata := [], configuration := cfg }
        = .error ("IPNI preprocessing failed: "
            ++ "Cannot read properties of undefined (reading 'cid')") := by
    intro cfg
    unfold ipniPreprocessData
    rw [show ({ currentData := df, accumulatedMetadata := [], configuration := cfg } : AddonExecutionContext).currentData = df from rfl, hconv]
  have habort : ∀ (cfg : DealConfiguration) (rest : List Addon),
      executePipelineFrom (ipniAddon :: rest)
          { currentData := df, accumulatedMetadata := [], configuration := cfg } []
        = .error ("Add-on ipfs_pin preprocessing failed: IPNI preprocessing failed: "
            ++ "Cannot read properties of undefined (reading 'cid')") := by
    intro cfg rest
    simp only [executePipelineFrom]
    rw [show ipniAddon.preprocessData = ipniPreprocessData from rfl, hpp cfg]
    rfl
  cases cdn with
  | false =>
    have hsort : sortAddonsByPriority (if (getApplicableAddons { enableCDN := false, enableIpni := true, dataFile := df }).isEmpty then [directAddon] else getApplicableAddons { enableCDN := false, enableIpni := true, dataFile := df }) = [ipniAddon] := rfl
    simp only [preprocessDeal, hsort, executePreprocessingPipeline]
    rw [habort]
    rfl
  | true =>
    have hsort : sortAddonsByPriority (if (getApplicableAddons { enableCDN := true, enableIpni := true, dataFile := df }).isEmpty then [directAddon] else getApplicableAddons { enableCDN := true, enableIpni := true, dataFile := df }) = [ipniAddon, cdnAddon] := rfl
    simp only [preprocessDeal, hsort, executePreprocessingPipeline]
    rw [habort]
    rfl

/-- Witness for C10: a one-byte payload converts with one block; the zero-size
payload fails conversion; the IPNI-enabled zero-size configuration aborts
preprocessing. -/
theorem c10_empty_payload_aborts_witness :
    (∃ car, convertToCar 4 { data := [7], size := 1, name := "f" } = .ok car ∧
      1 ≤ car.blockCount ∧ car.blockCIDs.head? = some car.rootCID) ∧
    convertToCar 4 { data := [], size := 0, name := "f" }
      = .error "Cannot read properties of undefined (reading 'cid')" ∧
    preprocessDeal { enableCDN := false, enableIpni := true, dataFile := { data := [], size := 0, name := "f" } }
      = .error ("Deal preprocessing failed: Add-on ipfs_pin preprocessing failed: "
          ++ "IPNI preprocessing failed: Cannot read properties of undefined (reading 'cid')") :=
  ⟨c10_empty_payload_aborts.1 4 { data := [7], size := 1, name := "f" } (by decide) (by decide),
   c10_empty_payload_aborts.2.1 4 { data := [], size := 0, name := "f" } rfl,
   c10_empty_payload_aborts.2.2 { enableCDN := false, enableIpni := true, dataFile := { data := [], size := 0, name := "f" } } rfl rfl⟩

/-! ## Theorems: Phase 1 timeout behaviour (C1) -/

/-- Monitor environment whose every poll reports indexed and advertised but
never retrieved. -/
def c1Menv : MonitorEnv :=
  { poll := fun _ => .ok { status := "submitted", indexed := true, advertised := true,
                           retrieved := false, retrievedAt := none } }

/-- Verification environment whose lookups always return no provider
addresses (instantly). -/
def c1Venv : VerifyEnv := { query := fun _ => .ok [], queryTime := fun _ => 0 }

/-- A deal record as left by the upload phase, used to observe the derived
verification status. -/
def c1Deal : Deal :=
  { fileName := "f", fileSize := 1, spAddress := "0xP", walletAddress := "0xW",
    status := .uploaded, metadata := [], serviceTypes := ["ipfs_pin"],
    uploadEndTime := some 0, hasStorageProvider := true }

/-- Counterexample to C1 as stated: the first (and only) Phase 1 poll reports
the indexed and advertised flags, polling then times out without the
retrieved flag, yet the monitor proceeds to Phases 2/3 with a synthetic
all-false status — the indexed/advertised flags observed during polling are
not preserved, and the derived verification status is FAILED instead of the
SP_ADVERTISED that preservation would give. -/
theorem c1_counterexample :
    c1Menv.poll 0 = .ok { status := "submitted", indexed := true, advertised := true,
                          retrieved := false, retrievedAt := none } ∧
    (monitorAndVerifyIPNI c1Menv c1Venv ["b1"] "root" "addr" 100 3600000 2500
        ⟨0, 0, 0, []⟩).1.monitoringResult.finalStatus.indexed = false ∧
    (monitorAndVerifyIPNI c1Menv c1Venv ["b1"] "root" "addr" 100 3600000 2500
        ⟨0, 0, 0, []⟩).1.monitoringResult.finalStatus.advertised = false ∧
    (updateDealWithIpniMetrics c1Deal
        (monitorAndVerifyIPNI c1Menv c1Venv ["b1"] "root" "addr" 100 3600000 2500
          ⟨0, 0, 0, []⟩).1 0).ipniStatus = some IpniStatus.failed :=
  ⟨rfl, rfl, rfl, rfl⟩

/-- C1 amended: when Phase 1 polling throws (it timed out without the
provider reporting a retrieval), the monitor proceeds using the synthetic
timeout status whose flags are all false — whatever was observed during
polling is discarded — so the Phase 2 settle delay is skipped, and Phase 3
verification still runs from the state the monitor left. -/
theorem c1_amended_timeout_uses_synthetic_status (menv : MonitorEnv) (venv : VerifyEnv)
    (blockCIDs : List String) (rootCID expected : String)
    (statusTimeoutMs ipniTimeoutMs pollIntervalMs : Nat) (st : VState) (e : String)
    (h : (monitorPieceStatus menv statusTimeoutMs pollIntervalMs st).1 = .error e) :
    (monitorAndVerifyIPNI menv venv blockCIDs rootCID expected statusTimeoutMs
        ipniTimeoutMs pollIntervalMs st).1.monitoringResult
      = timeoutFallbackResult statusTimeoutMs ∧
    (monitorAndVerifyIPNI menv venv blockCIDs rootCID expected statusTimeoutMs
        ipniTimeoutMs pollIntervalMs st).1.ipniResult
      = (verifyIPNIAdvertisement venv rootCID blockCIDs expected ipniTimeoutMs
          (monitorPieceStatus menv statusTimeoutMs pollIntervalMs st).2).1 := by
  constructor <;>
    simp [monitorAndVerifyIPNI, h, timeoutFallbackResult]

/-- Witness for the amended C1: a run whose Phase 1 times out after observing
only indexed/advertised. -/
theorem c1_amended_timeout_uses_synthetic_status_witness :
    (monitorPieceStatus c1Menv 100 2500 ⟨0, 0, 0, []⟩).1
      = .error "Timeout waiting for piece retrieval" ∧
    ((monitorAndVerifyIPNI c1Menv c1Venv ["b1"] "root" "addr" 100 3600000 2500
         ⟨0, 0, 0, []⟩).1.monitoringResult = timeoutFallbackResult 100 ∧
     (monitorAndVerifyIPNI c1Menv c1Venv ["b1"] "root" "addr" 100 3600000 2500
         ⟨0, 0, 0, []⟩).1.ipniResult
       = (verifyIPNIAdvertisement c1Venv "root" ["b1"] "addr" 3600000
           (monitorPieceStatus c1Menv 100 2500 ⟨0, 0, 0, []⟩).2).1) :=
  ⟨rfl, c1_amended_timeout_uses_synthetic_status c1Menv c1Venv ["b1"] "root" "addr"
    100 3600000 2500 ⟨0, 0, 0, []⟩ "Timeout waiting for piece retrieval" rfl⟩

/-! ## Theorems: Phase 3 verification call structure (C3) -/

/-- The lookup events of a verification log, with their outcomes. -/
def lookupsIn (log : List VEvent) : List (String × Bool) :=
  log.filterMap (fun e => match e with
    | .lookup c b => some (c, b)
    | _ => none)

theorem lookupsIn_append (l1 l2 : List VEvent) :
    lookupsIn (l1 ++ l2) = lookupsIn l1 ++ lookupsIn l2 :=
  List.filterMap_append l1 l2 _

/-- One verifySingleCID call appends exactly one lookup event (carrying its
outcome) and never decreases the clock. -/
theorem verifySingleCID_spec (env : VerifyEnv) (expected cid : String) (st : VState) :
    (verifySingleCID env expected cid st).2.log
        = st.log ++ [VEvent.lookup cid (verifySingleCID env expected cid st).1.verified] ∧
    st.now ≤ (verifySingleCID env expected cid st).2.now := by
  unfold verifySingleCID VState.afterLookup
  cases env.query st.calls with
  | error m => simp
  | ok addrs =>
    by_cases h0 : addrs.length = 0
    · simp [h0]
    · by_cases hm : expected ∈ addrs
      · simp [h0, hm]
      · simp [h0, hm]

/-- The event trace of j failed root-identifier attempts, each followed by
the fixed retry sleep. -/
def failedRootAttempts (rootCID : String) : Nat → List VEvent
  | 0 => []
  | j + 1 =>
    VEvent.lookup rootCID false
      :: VEvent.sleep IPNI_VERIFICATION_RETRY_INTERVAL_MS
      :: failedRootAttempts rootCID j

theorem lookupsIn_failedRootAttempts (rootCID : String) :
    ∀ j, lookupsIn (failedRootAttempts rootCID j) = List.replicate j (rootCID, false)
  | 0 => rfl
  | j + 1 => by
    simp only [failedRootAttempts, lookupsIn, List.filterMap_cons]
    simpa [lookupsIn, List.replicate_succ] using lookupsIn_failedRootAttempts rootCID j

theorem mem_failedRootAttempts (rootCID : String) :
    ∀ j, ∀ ev ∈ failedRootAttempts rootCID j,
      (∃ b, ev = VEvent.lookup rootCID b) ∨ ev = VEvent.sleep IPNI_VERIFICATION_RETRY_INTERVAL_MS
  | 0, ev, h => absurd h (by simp [failedRootAttempts])
  | j + 1, ev, h => by
    simp only [failedRootAttempts, List.mem_cons] at h
    rcases h with h | h | h
    · exact Or.inl ⟨false, h⟩
    · exact Or.inr h
    · exact mem_failedRootAttempts rootCID j ev h

/-- Trace shape of the root retry loop: either it ran j failed attempts (with
their sleeps) and gave up at the deadline or on fuel exhaustion, reporting
unverified — with j ≥ 1 whenever the deadline had not yet passed at entry and
there was fuel — or it ran j failed attempts followed by one final lookup, and
reports verified exactly the final lookup's outcome. -/
theorem verifyRootCIDLoop_shape (env : VerifyEnv) (rootCID expected : String)
    (maxDurationMs startTime : Nat) :
    ∀ (fuel : Nat) (st : VState),
      (∃ j, j ≤ fuel ∧
        (verifyRootCIDLoop env rootCID expected maxDurationMs startTime fuel st).2.log
          = st.log ++ failedRootAttempts rootCID j ∧
        (verifyRootCIDLoop env rootCID expected maxDurationMs startTime fuel st).1.verified
          = false ∧
        (st.now - startTime ≤ maxDurationMs → 1 ≤ fuel → 1 ≤ j)) ∨
      (∃ j ok, j + 1 ≤ fuel ∧
        (verifyRootCIDLoop env rootCID expected maxDurationMs startTime fuel st).2.log
          = st.log ++ (failedRootAttempts rootCID j ++ [VEvent.lookup rootCID ok]) ∧
        (verifyRootCIDLoop env rootCID expected maxDurationMs startTime fuel st).1.verified
          = ok) := by
  intro fuel
  induction fuel with
  | zero =>
    intro st
    left
    exact ⟨0, le_refl 0, by simp [verifyRootCIDLoop, failedRootAttempts],
      by simp [verifyRootCIDLoop], fun _ habs => absurd habs (by simp)⟩
  | succ fuel ih =>
    intro st
    by_cases htime : st.now - startTime > maxDurationMs
    · left
      exact ⟨0, Nat.zero_le _, by simp [verifyRootCIDLoop, htime, failedRootAttempts],
        by simp [verifyRootCIDLoop, htime], fun hle _ => absurd hle (by omega)⟩
    · have hlog := (verifySingleCID_spec env expected rootCID st).1
      by_cases hv : (verifySingleCID env expected rootCID st).1.verified = true
      · right
        refine ⟨0, true, by omega, ?_, ?_⟩
        · rw [hv] at hlog
          simpa [verifyRootCIDLoop, htime, hv, failedRootAttempts] using hlog
        · simp [verifyRootCIDLoop, htime, hv]
      · have hv' : (verifySingleCID env expected rootCID st).1.verified = false := by
          simpa using hv
        rw [hv'] at hlog
        by_cases hfuel : 0 < fuel
        · have hred : verifyRootCIDLoop env rootCID expected maxDurationMs startTime
              (fuel + 1) st
              = verifyRootCIDLoop env rootCID expected maxDurationMs startTime fuel
                  ((verifySingleCID env expected rootCID st).2.afterSleep
                    IPNI_VERIFICATION_RETRY_INTERVAL_MS) := by
            simp [verifyRootCIDLoop, htime, hv', hfuel]
          have hst2 : ((verifySingleCID env expected rootCID st).2.afterSleep
              IPNI_VERIFICATION_RETRY_INTERVAL_MS).log
              = st.log ++ failedRootAttempts rootCID 1 := by
            simp [VState.afterSleep, hlog, failedRootAttempts]
          rcases ih ((verifySingleCID env expected rootCID st).2.afterSleep
              IPNI_VERIFICATION_RETRY_INTERVAL_MS) with
            ⟨j, hj, hlog2, hver, _⟩ | ⟨j, ok, hj, hlog2, hver⟩
          · left
            refine ⟨j + 1, by omega, ?_, by rw [hred]; exact hver, fun _ _ => by omega⟩
            rw [hred, hlog2, hst2]
            simp [failedRootAttempts]
          · right
            refine ⟨j + 1, ok, by omega, ?_, by rw [hred]; exact hver⟩
            rw [hred, hlog2, hst2]
            simp [failedRootAttempts]
        · right
          refine ⟨0, false, by omega, ?_, ?_⟩
          · simpa [verifyRootCIDLoop, htime, hv', hfuel, failedRootAttempts] using hlog
          · simp [verifyRootCIDLoop, htime, hv', hfuel]

/-- Call structure of the block-identifier loop: it looks up exactly a prefix
of the block list (each block once, in order, no sleeps and no retries), and
it stops before the end of the list only when the elapsed time has exceeded
the phase timeout at the break check (the returned state's clock). -/
theorem verifyBlockCIDsLoop_spec (env : VerifyEnv) (expected : String)
    (maxDurationMs startTime : Nat) :
    ∀ (blocks : List String) (st : VState),
      ∃ (k : Nat) (Δ : List VEvent),
        k ≤ blocks.length ∧
        (verifyBlockCIDsLoop env expected maxDurationMs startTime blocks st).2.log
          = st.log ++ Δ ∧
        (lookupsIn Δ).map Prod.fst = blocks.take k ∧
        (∀ ev ∈ Δ, ∃ c b, ev = VEvent.lookup c b) ∧
        (k < blocks.length →
          (verifyBlockCIDsLoop env expected maxDurationMs startTime blocks st).2.now
              - startTime > maxDurationMs) := by
  intro blocks
  induction blocks with
  | nil =>
    intro st
    exact ⟨0, [], le_refl 0, by simp [verifyBlockCIDsLoop], by simp [lookupsIn],
      by simp, by simp⟩
  | cons cid rest ih =>
    intro st
    by_cases htime : st.now - startTime > maxDurationMs
    · refine ⟨0, [], Nat.zero_le _, by simp [verifyBlockCIDsLoop, htime],
        by simp [lookupsIn], by simp, ?_⟩
      intro _
      simpa [verifyBlockCIDsLoop, htime] using htime
    · obtain ⟨k, Δ, hk, hlog2, hmap, hev, hstop⟩ :=
        ih (verifySingleCID env expected cid st).2
      have hlog := (verifySingleCID_spec env expected cid st).1
      have hred : ∀ pr : (Nat × List FailedCID) × VState,
          pr = verifyBlockCIDsLoop env expected maxDurationMs startTime rest
              (verifySingleCID env expected cid st).2 →
          (verifyBlockCIDsLoop env expected maxDurationMs startTime (cid :: rest) st).2
            = pr.2 := by
        intro pr hpr
        simp only [verifyBlockCIDsLoop, if_neg htime]
        rw [← hpr]
        cases hb : (verifySingleCID env expected cid st).1.verified <;> simp [hpr]
      have hred2 := hred _ rfl
      refine ⟨k + 1, VEvent.lookup cid ((verifySingleCID env expected cid st).1.verified) :: Δ,
        by simpa using Nat.succ_le_succ hk, ?_, ?_, ?_, ?_⟩
      · rw [hred2, hlog2, hlog]
        simp
      · simp only [lookupsIn, List.filterMap_cons] at hmap ⊢
        simp [hmap, List.take_succ_cons]
      · intro ev hevm
        rcases List.mem_cons.mp hevm with h1 | h1
        · exact ⟨cid, _, h1⟩
        · exact hev ev h1
      · intro hlt
        rw [hred2]
        refine hstop ?_
        simp only [List.length_cons] at hlt
        omega

theorem getLast?_replicate_not_true (rootCID : String) (j : Nat) :
    (List.replicate j ((rootCID, false) : String × Bool)).getLast? ≠ some (rootCID, true) := by
  intro hcon
  have hmem := List.mem_of_getLast?_eq_some hcon
  have := List.eq_of_mem_replicate hmem
  simp at this

/-- C3: call structure of Phase 3 external verification, from a fresh log.
The event log splits into a root phase followed by a block phase. The root
phase looks up only the root identifier, between 1 and 5 times; every lookup
before the last failed (a retry happens only after a failed or mismatching
lookup), the only non-lookup events are sleeps of the fixed 10-second retry
interval, and the root counts as verified exactly when the last root lookup
succeeded. The block phase runs only when the root verified; it looks up
exactly a prefix of the block identifiers, each at most once, in order, with
no sleeps (hence no retries), and it stops short of the end of the list only
when the phase timeout had elapsed (measured at the returned clock). -/
theorem c3_phase3_call_structure (env : VerifyEnv) (rootCID expected : String)
    (blockCIDs : List String) (maxDurationMs : Nat) (now0 calls0 polls0 : Nat) :
    ∃ (r k : Nat) (dR dB : List VEvent),
      1 ≤ r ∧ r ≤ 5 ∧ k ≤ blockCIDs.length ∧
      (verifyIPNIAdvertisement env rootCID blockCIDs expected maxDurationMs
          ⟨now0, calls0, polls0, []⟩).2.log = dR ++ dB ∧
      (lookupsIn dR).map Prod.fst = List.replicate r rootCID ∧
      (∀ p ∈ (lookupsIn dR).dropLast, p.2 = false) ∧
      ((verifyIPNIAdvertisement env rootCID blockCIDs expected maxDurationMs
          ⟨now0, calls0, polls0, []⟩).1.rootCIDVerified = true
        ↔ (lookupsIn dR).getLast? = some (rootCID, true)) ∧
      (∀ ev ∈ dR, (∃ b, ev = VEvent.lookup rootCID b)
        ∨ ev = VEvent.sleep IPNI_VERIFICATION_RETRY_INTERVAL_MS) ∧
      (lookupsIn dB).map Prod.fst = blockCIDs.take k ∧
      (∀ ev ∈ dB, ∃ c b, ev = VEvent.lookup c b) ∧
      ((verifyIPNIAdvertisement env rootCID blockCIDs expected maxDurationMs
          ⟨now0, calls0, polls0, []⟩).1.rootCIDVerified = false → k = 0 ∧ dB = []) ∧
      ((verifyIPNIAdvertisement env rootCID blockCIDs expected maxDurationMs
          ⟨now0, calls0, polls0, []⟩).1.rootCIDVerified = true → k < blockCIDs.length →
        (verifyIPNIAdvertisement env rootCID blockCIDs expected maxDurationMs
          ⟨now0, calls0, polls0, []⟩).2.now - now0 > maxDurationMs) := by
  have hV : (verifyIPNIAdvertisement env rootCID blockCIDs expected maxDurationMs
      ⟨now0, calls0, polls0, []⟩).1.rootCIDVerified
      = (verifyRootCIDLoop env rootCID expected maxDurationMs now0 5
          ⟨now0, calls0, polls0, []⟩).1.verified := rfl
  have hSt : (verifyIPNIAdvertisement env rootCID blockCIDs expected maxDurationMs
      ⟨now0, calls0, polls0, []⟩).2
      = (if (verifyRootCIDLoop env rootCID expected maxDurationMs now0 5
            ⟨now0, calls0, polls0, []⟩).1.verified = true then
          verifyBlockCIDsLoop env expected maxDurationMs now0 blockCIDs
            (verifyRootCIDLoop env rootCID expected maxDurationMs now0 5
              ⟨now0, calls0, polls0, []⟩).2
        else (((0 : Nat), ([] : List FailedCID)),
          (verifyRootCIDLoop env rootCID expected maxDurationMs now0 5
            ⟨now0, calls0, polls0, []⟩).2)).2 := rfl
  have hshape := verifyRootCIDLoop_shape env rootCID expected maxDurationMs now0 5
    ⟨now0, calls0, polls0, []⟩
  rcases hshape with ⟨j, hj, hlog, hver, hstart⟩ | ⟨j, ok, hj, hlog, hver⟩
  · -- the root phase gave up without a final lookup: it ran j ≥ 1 attempts
    have hj1 : 1 ≤ j := hstart (by simp) (by omega)
    refine ⟨j, 0, failedRootAttempts rootCID j, [], hj1, by omega, Nat.zero_le _,
      ?_, ?_, ?_, ?_, ?_, by simp [lookupsIn], by simp, fun _ => ⟨rfl, rfl⟩, ?_⟩
    · rw [hSt, if_neg (by rw [hver]; simp)]
      simpa using hlog
    · rw [lookupsIn_failedRootAttempts]
      simp
    · rw [lookupsIn_failedRootAttempts]
      intro p hp
      rw [List.dropLast_replicate] at hp
      have := List.eq_of_mem_replicate hp
      simp [this]
    · rw [hV, hver]
      rw [lookupsIn_failedRootAttempts]
      simp only [Bool.false_eq_true, false_iff]
      exact getLast?_replicate_not_true rootCID j
    · exact mem_failedRootAttempts rootCID j
    · intro hvt
      rw [hV, hver] at hvt
      exact absurd hvt (by simp)
  · cases ok with
    | false =>
      refine ⟨j + 1, 0, failedRootAttempts rootCID j ++ [VEvent.lookup rootCID false], [],
        by omega, by omega, Nat.zero_le _, ?_, ?_, ?_, ?_, ?_, by simp [lookupsIn],
        by simp, fun _ => ⟨rfl, rfl⟩, ?_⟩
      · rw [hSt, if_neg (by rw [hver]; simp)]
        simpa using hlog
      · rw [lookupsIn_append, lookupsIn_failedRootAttempts]
        simp [lookupsIn, List.replicate_succ']
      · rw [lookupsIn_append, lookupsIn_failedRootAttempts]
        intro p hp
        simp only [lookupsIn, List.filterMap_cons, List.filterMap_nil] at hp
        rw [List.dropLast_concat] at hp
        have := List.eq_of_mem_replicate hp
        simp [this]
      · rw [hV, hver]
        rw [lookupsIn_append, lookupsIn_failedRootAttempts]
        simp only [lookupsIn, List.filterMap_cons, List.filterMap_nil]
        rw [List.getLast?_concat]
        simp
      · intro ev hev
        rcases List.mem_append.mp hev with h1 | h1
        · exact mem_failedRootAttempts rootCID j ev h1
        · simp only [List.mem_singleton] at h1
          exact Or.inl ⟨false, h1⟩
      · intro hvt
        rw [hV, hver] at hvt
        exact absurd hvt (by simp)
    | true =>
      obtain ⟨k, dB, hk, hlog2, hmap2, hev2, hstop⟩ :=
        verifyBlockCIDsLoop_spec env expected maxDurationMs now0 blockCIDs
          (verifyRootCIDLoop env rootCID expected maxDurationMs now0 5
            ⟨now0, calls0, polls0, []⟩).2
      refine ⟨j + 1, k, failedRootAttempts rootCID j ++ [VEvent.lookup rootCID true], dB,
        by omega, by omega, hk, ?_, ?_, ?_, ?_, ?_, hmap2, hev2, ?_, ?_⟩
      · rw [hSt, if_pos hver]
        rw [hlog2, hlog]
        simp
      · rw [lookupsIn_append, lookupsIn_failedRootAttempts]
        simp [lookupsIn, List.replicate_succ']
      · rw [lookupsIn_append, lookupsIn_failedRootAttempts]
        intro p hp
        simp only [lookupsIn, List.filterMap_cons, List.filterMap_nil] at hp
        rw [List.dropLast_concat] at hp
        have := List.eq_of_mem_replicate hp
        simp [this]
      · rw [hV, hver]
        rw [lookupsIn_append, lookupsIn_failedRootAttempts]
        simp only [lookupsIn, List.filterMap_cons, List.filterMap_nil]
        rw [List.getLast?_concat]
        simp
      · intro ev hev
        rcases List.mem_append.mp hev with h1 | h1
        · exact mem_failedRootAttempts rootCID j ev h1
        · simp only [List.mem_singleton] at h1
          exact Or.inl ⟨true, h1⟩
      · intro hvf
        rw [hV, hver] at hvf
        exact absurd hvf (by simp)
      · intro _ hklt
        rw [hSt, if_pos hver]
        exact hstop hklt

end Dealbot
